import Mathlib

/-!
Shallow embedding of `Scaffold_Orthogonality.py` (scaffold-orthogonality
scoring of two DNA sequences) and verification of its specification.

Sequences are modelled as `List Char`, Python integers as `Nat`/`Int`
(no overflow concerns: Python integers are unbounded), Python's float
`nan` — used to mark the reverse-complement counters as "not computed" —
as `Option.none`, and fallible Python code (dictionary lookups that can
raise `KeyError`, process exit on invalid input) as `Option`-returning
functions.
-/

namespace ScaffoldOrtho

/-- The `REVERSE` dictionary of the script: Watson-Crick partner of each
base.  A lookup of any other character raises `KeyError` in Python, hence
the `Option` result. -/
def REVERSE (c : Char) : Option Char :=
  if c = 'A' then some 'T'
  else if c = 'T' then some 'A'
  else if c = 'G' then some 'C'
  else if c = 'C' then some 'G'
  else none

/-- The fields of the `Project` attrs-class that the scoring call reads
(the file-system paths are consumed only by the out-of-scope I/O layer). -/
structure Project where
  n : Nat
  is_linear : Bool
  get_rev_compl : Bool
deriving DecidableEq

/-- Python slice `s[a:b]` for `0 ≤ a`, `0 ≤ b` (out-of-range bounds are
clamped, an empty range yields the empty string). -/
def pySlice (s : List Char) (a b : Nat) : List Char :=
  (s.take b).drop a

/-- Python slice `s[a:b:-1]` for `0 ≤ b ≤ a`: the characters at indices
`min a (len-1), …, b+1`, i.e. the reverse of `s[b+1 : a+1]` (the start
index of a negative-step slice is clamped to the last valid index). -/
def pySliceRev (s : List Char) (a b : Nat) : List Char :=
  ((s.take (a + 1)).drop (b + 1)).reverse

/-- The inner `complement` function of `check_ortho`, exactly as written:
its loop rebinds the loop variable `base` to `REVERSE[base]` without ever
writing into an output buffer, so after evaluating every lookup (each of
which can raise `KeyError`, hence `none`) it returns `segment` unchanged. -/
def complement (segment : List Char) : Option (List Char) :=
  if segment.all (fun base => (REVERSE base).isSome) then some segment
  else none

/-- The inner `circularise_sc` function of `check_ortho`: linear
sequences pass through, circular ones are extended by their first
`n` characters (`sc + sc[:n]`). -/
def circularise_sc (project : Project) (sc1 sc2 : List Char) :
    List Char × List Char :=
  if project.is_linear then (sc1, sc2)
  else (sc1 ++ sc1.take project.n, sc2 ++ sc2.take project.n)

/-- The inner `is_match` function of `check_ortho`: the two segments must
be equal and the first must have the exact segment length `n`. -/
def is_match (seg1 seg2 : List Char) (project : Project) : Bool :=
  seg1 == seg2 && seg1.length == project.n

/-- One pass of the inner `for i in range(len(sc2))` loop of
`check_ortho`, iterating over the remaining inner indices `js` and
threading the accumulators
`(count, count_RC, repeat_count, repeat_count_RC)`.  `count_RC` is
`none` when it holds the float `nan` (reverse-complement mode off); the
increment `count_RC += 1` is then never executed because the whole
reverse-complement block is guarded by `project.get_rev_compl`.  (The
script reuses the outer loop name `i` for this inner loop; in Python the
outer `for` reassigns its variable from its own range on each iteration,
so the shadowing does not alter the outer iteration.  We use `j`.) -/
def inner_loop (sc1_seg sc2_full : List Char) (project : Project) :
    List Nat → Nat → Option Nat → Nat → Nat →
    Option (Nat × Option Nat × Nat × Nat)
  | [], count, count_RC, repeat_count, repeat_count_RC =>
      some (count, count_RC, repeat_count, repeat_count_RC)
  | j :: js, count, count_RC, repeat_count, repeat_count_RC =>
      let sc2_seg := pySlice sc2_full j (j + project.n)
      let count' := if is_match sc1_seg sc2_seg project then count + 1 else count
      let repeat_count' :=
        if is_match sc1_seg sc2_seg project then repeat_count + 1 else repeat_count
      if project.get_rev_compl then
        match complement (pySliceRev sc2_full (j + project.n) j) with
        | none => none
        | some sc2_seg_RC =>
            if is_match sc1_seg sc2_seg_RC project then
              inner_loop sc1_seg sc2_full project js count'
                (count_RC.map (· + 1)) repeat_count' (repeat_count_RC + 1)
            else
              inner_loop sc1_seg sc2_full project js count'
                count_RC repeat_count' repeat_count_RC
      else
        inner_loop sc1_seg sc2_full project js count' count_RC repeat_count'
          repeat_count_RC

/-- The mutable state threaded through the outer loop of `check_ortho`. -/
structure ScanState where
  count : Nat
  count_RC : Option Nat
  n_count : List Nat
  n_count_RC : List Nat
deriving DecidableEq

/-- The outer `for i in range(len(sc1))` loop of `check_ortho`: for each
starting position `i`, slice `sc1_seg = sc1_full[i : i+n]`, run the inner
scan with fresh per-position repeat counters, and afterwards append each
repeat counter to its multiplicity list when it exceeds 1. -/
def outer_loop (sc1_full sc2_full : List Char) (sc2_len : Nat)
    (project : Project) : List Nat → ScanState → Option ScanState
  | [], st => some st
  | i :: is', st =>
      let sc1_seg := pySlice sc1_full i (i + project.n)
      match inner_loop sc1_seg sc2_full project (List.range sc2_len)
          st.count st.count_RC 0 0 with
      | none => none
      | some (count', count_RC', repeat_count, repeat_count_RC) =>
          outer_loop sc1_full sc2_full sc2_len project is'
            { count := count'
              count_RC := count_RC'
              n_count :=
                if repeat_count > 1 then st.n_count ++ [repeat_count]
                else st.n_count
              n_count_RC :=
                if repeat_count_RC > 1 then st.n_count_RC ++ [repeat_count_RC]
                else st.n_count_RC }

/-- The output dictionary of `check_ortho`.  `count_revcompl` and
`count_revcompl_corrected` hold the float `nan` when reverse-complement
mode is off, modelled as `none`; the corrected counts can in principle go
negative in Python, hence `Int`. -/
structure Output where
  count : Nat
  count_revcompl : Option Nat
  count_corrected : Int
  count_revcompl_corrected : Option Int
  n_count : List Nat
  n_count_revcompl : List Nat
deriving DecidableEq

/-- The function `check_ortho(sc1, sc2, project)`: circularise, run the double scan,
then apply the repeat correction `count - (sum(n_count) - len(n_count))`
to each raw count (`nan - 0 = nan` when reverse-complement mode is off,
modelled by `Option.map`), and assemble the output record.  `none` marks
a Python exception (a `KeyError` inside `complement`). -/
def check_ortho (sc1 sc2 : List Char) (project : Project) : Option Output :=
  let p := circularise_sc project sc1 sc2
  let init : ScanState :=
    { count := 0
      count_RC := if project.get_rev_compl then some 0 else none
      n_count := []
      n_count_RC := [] }
  match outer_loop p.1 p.2 sc2.length project (List.range sc1.length) init with
  | none => none
  | some st =>
      some
        { count := st.count
          count_revcompl := st.count_RC
          count_corrected :=
            (st.count : Int) -
              (((st.n_count.map Int.ofNat).sum) - st.n_count.length)
          count_revcompl_corrected :=
            st.count_RC.map (fun c =>
              (c : Int) -
                (((st.n_count_RC.map Int.ofNat).sum) - st.n_count_RC.length))
          n_count := st.n_count
          n_count_revcompl := st.n_count_RC }

/-- Membership test of the 4-letter scaffold alphabet. -/
def is_ATGC (c : Char) : Bool :=
  c = 'A' || c = 'T' || c = 'G' || c = 'C'

/-- Python `str.upper()` restricted to the ASCII range used by the alphabet. -/
def pyUpper (s : List Char) : List Char :=
  s.map Char.toUpper

/-- Python `str.strip("\n")`: removes newline characters from both ends
of the string. -/
def pyStripNL (s : List Char) : List Char :=
  (((s.dropWhile (fun c => c = '\n')).reverse.dropWhile
      (fun c => c = '\n')).reverse)

/-- The inner `proc_infile` function of `parse_scaffolds`, applied to the
first line read from the file: uppercase, strip newlines, then require
`set(sc_str).issubset(set("ATGC"))` (vacuously true for the empty
string); on violation the script prints a message and terminates the
process (`none` here), otherwise the cleaned string is returned. -/
def proc_infile (line : List Char) : Option (List Char) :=
  let sc_str := pyStripNL (pyUpper line)
  if sc_str.all is_ATGC then some sc_str else none

/-! Specification-level views of the scan, read off the source: the
per-position repeat counters of the inner loop expressed as `countP`
over the inner index range. -/

/-- The inner-loop exact-match test at inner index `j` (the body of the
first `if` of the inner loop). -/
def exactHit (project : Project) (sc2_full sc1_seg : List Char) (j : Nat) : Bool :=
  is_match sc1_seg (pySlice sc2_full j (j + project.n)) project

/-- The inner-loop reverse-complement match test at inner index `j`,
including its `get_rev_compl` guard (recall that `complement` returns
its argument unchanged). -/
def rcHit (project : Project) (sc2_full sc1_seg : List Char) (j : Nat) : Bool :=
  project.get_rev_compl &&
    is_match sc1_seg (pySliceRev sc2_full (j + project.n) j) project

/-- Value of the per-position counter `repeat_count` after a full inner
scan for outer index `i`. -/
def repeat_at (sc1_full sc2_full : List Char) (sc2_len : Nat)
    (project : Project) (i : Nat) : Nat :=
  (List.range sc2_len).countP
    (exactHit project sc2_full (pySlice sc1_full i (i + project.n)))

/-- Value of the per-position counter `repeat_count_RC` after a full
inner scan for outer index `i`. -/
def repeat_RC_at (sc1_full sc2_full : List Char) (sc2_len : Nat)
    (project : Project) (i : Nat) : Nat :=
  (List.range sc2_len).countP
    (rcHit project sc2_full (pySlice sc1_full i (i + project.n)))

/-- The list of per-position exact repeat counters, one per starting
position of `sc1`. -/
def exact_repeats (sc1 sc2 : List Char) (project : Project) : List Nat :=
  (List.range sc1.length).map
    (repeat_at (circularise_sc project sc1 sc2).1
      (circularise_sc project sc1 sc2).2 sc2.length project)

/-- The list of per-position reverse-complement repeat counters, one per
starting position of `sc1`. -/
def rc_repeats (sc1 sc2 : List Char) (project : Project) : List Nat :=
  (List.range sc1.length).map
    (repeat_RC_at (circularise_sc project sc1 sc2).1
      (circularise_sc project sc1 sc2).2 sc2.length project)

/-- A character of a reversed Python slice is a character of the sliced
string. -/
lemma mem_of_mem_pySliceRev {c : Char} {s : List Char} {a b : Nat}
    (h : c ∈ pySliceRev s a b) : c ∈ s := by
  unfold pySliceRev at h
  rw [List.mem_reverse] at h
  exact List.take_subset _ _ (List.drop_subset _ _ h)

/-- On a segment all of whose bases lie in the `REVERSE` table, no lookup
raises and `complement` returns the segment unchanged. -/
lemma complement_of_valid {seg : List Char}
    (h : ∀ c ∈ seg, (REVERSE c).isSome = true) :
    complement seg = some seg := by
  unfold complement
  rw [if_pos]
  exact List.all_eq_true.mpr h


lemma inner_loop_eq (sc1_seg sc2_full : List Char) (project : Project)
    (hv : project.get_rev_compl = true → ∀ c ∈ sc2_full, (REVERSE c).isSome = true) :
    ∀ (js : List Nat) (count : Nat) (count_RC : Option Nat)
      (repeat_count repeat_count_RC : Nat),
    inner_loop sc1_seg sc2_full project js count count_RC repeat_count
        repeat_count_RC =
      some (count + js.countP (exactHit project sc2_full sc1_seg),
            count_RC.map (· + js.countP (rcHit project sc2_full sc1_seg)),
            repeat_count + js.countP (exactHit project sc2_full sc1_seg),
            repeat_count_RC + js.countP (rcHit project sc2_full sc1_seg)) := by
  intro js
  induction js with
  | nil =>
      intro count count_RC repeat_count repeat_count_RC
      simp [inner_loop]
  | cons j js ih =>
      intro count count_RC repeat_count repeat_count_RC
      rw [inner_loop]
      by_cases hrc : project.get_rev_compl = true
      · have hval : ∀ c ∈ pySliceRev sc2_full (j + project.n) j,
            (REVERSE c).isSome = true := by
          intro c hc
          exact hv hrc c (mem_of_mem_pySliceRev hc)
        simp only [hrc, if_true, complement_of_valid hval]
        by_cases hm : is_match sc1_seg (pySlice sc2_full j (j + project.n)) project
        · by_cases hm2 : is_match sc1_seg
              (pySliceRev sc2_full (j + project.n) j) project
          · cases count_RC <;>
              simp [hm, hm2, ih, List.countP_cons, exactHit, rcHit, hrc] <;> omega
          · cases count_RC <;>
              simp [hm, hm2, ih, List.countP_cons, exactHit, rcHit, hrc] <;> omega
        · by_cases hm2 : is_match sc1_seg
              (pySliceRev sc2_full (j + project.n) j) project
          · cases count_RC <;>
              simp [hm, hm2, ih, List.countP_cons, exactHit, rcHit, hrc] <;> omega
          · cases count_RC <;>
              simp [hm, hm2, ih, List.countP_cons, exactHit, rcHit, hrc]
      · have hrc' : project.get_rev_compl = false := by
          cases h : project.get_rev_compl
          · rfl
          · exact absurd h hrc
        simp only [hrc', if_false, Bool.false_eq_true, ih]
        by_cases hm : is_match sc1_seg (pySlice sc2_full j (j + project.n)) project
        · cases count_RC <;>
            simp [hm, List.countP_cons, exactHit, rcHit, hrc'] <;> omega
        · cases count_RC <;>
            simp [hm, List.countP_cons, exactHit, rcHit, hrc']


lemma outer_loop_eq (sc1_full sc2_full : List Char) (sc2_len : Nat)
    (project : Project)
    (hv : project.get_rev_compl = true → ∀ c ∈ sc2_full, (REVERSE c).isSome = true) :
    ∀ (is' : List Nat) (st : ScanState),
    outer_loop sc1_full sc2_full sc2_len project is' st =
      some
        { count := st.count +
            (is'.map (repeat_at sc1_full sc2_full sc2_len project)).sum
          count_RC := st.count_RC.map
            (· + (is'.map (repeat_RC_at sc1_full sc2_full sc2_len project)).sum)
          n_count := st.n_count ++
            ((is'.map (repeat_at sc1_full sc2_full sc2_len project)).filter
              (fun r => 1 < r))
          n_count_RC := st.n_count_RC ++
            ((is'.map (repeat_RC_at sc1_full sc2_full sc2_len project)).filter
              (fun r => 1 < r)) } := by
  intro is'
  induction is' with
  | nil =>
      intro st
      simp [outer_loop]
  | cons i is' ih =>
      intro st
      rw [outer_loop]
      rw [inner_loop_eq _ _ _ hv]
      simp only [Nat.zero_add, ih]
      have hrep : (List.range sc2_len).countP
          (exactHit project sc2_full (pySlice sc1_full i (i + project.n))) =
          repeat_at sc1_full sc2_full sc2_len project i := rfl
      have hrepRC : (List.range sc2_len).countP
          (rcHit project sc2_full (pySlice sc1_full i (i + project.n))) =
          repeat_RC_at sc1_full sc2_full sc2_len project i := rfl
      rw [hrep, hrepRC]
      congr 1
      by_cases h1 : 1 < repeat_at sc1_full sc2_full sc2_len project i <;>
        by_cases h2 : 1 < repeat_RC_at sc1_full sc2_full sc2_len project i <;>
        cases hc : st.count_RC <;>
        simp [h1, h2, hc, List.filter_cons, Nat.add_assoc, List.append_assoc]


lemma mem_circularise_snd {c : Char} {project : Project} {sc1 sc2 : List Char}
    (h : c ∈ (circularise_sc project sc1 sc2).2) : c ∈ sc2 := by
  unfold circularise_sc at h
  by_cases hl : project.is_linear <;> simp [hl] at h
  · exact h
  · rcases h with h | h
    · exact h
    · exact List.take_subset _ _ h

theorem check_ortho_eq (sc1 sc2 : List Char) (project : Project)
    (hv : project.get_rev_compl = true → ∀ c ∈ sc2, (REVERSE c).isSome = true) :
    check_ortho sc1 sc2 project =
      some
        { count := (exact_repeats sc1 sc2 project).sum
          count_revcompl :=
            if project.get_rev_compl then some (rc_repeats sc1 sc2 project).sum
            else none
          count_corrected :=
            ((exact_repeats sc1 sc2 project).sum : Int) -
              ((((exact_repeats sc1 sc2 project).filter (fun r => 1 < r)).map
                  Int.ofNat).sum -
                ((exact_repeats sc1 sc2 project).filter (fun r => 1 < r)).length)
          count_revcompl_corrected :=
            if project.get_rev_compl then
              some (((rc_repeats sc1 sc2 project).sum : Int) -
                ((((rc_repeats sc1 sc2 project).filter (fun r => 1 < r)).map
                    Int.ofNat).sum -
                  ((rc_repeats sc1 sc2 project).filter (fun r => 1 < r)).length))
            else none
          n_count := (exact_repeats sc1 sc2 project).filter (fun r => 1 < r)
          n_count_revcompl :=
            (rc_repeats sc1 sc2 project).filter (fun r => 1 < r) } := by
  have hv' : project.get_rev_compl = true →
      ∀ c ∈ (circularise_sc project sc1 sc2).2, (REVERSE c).isSome = true := by
    intro hg c hc
    exact hv hg c (mem_circularise_snd hc)
  rw [check_ortho]
  rw [outer_loop_eq _ _ _ _ hv']
  by_cases hg : project.get_rev_compl <;>
    simp [hg, exact_repeats, rc_repeats]


lemma sum_map_ofNat (L : List Nat) : (L.map Int.ofNat).sum = (L.sum : Int) := by
  induction L with
  | nil => simp
  | cons x L ih => simp [ih]

lemma length_le_sum_of_two_le (L : List Nat) (h : ∀ x ∈ L, 2 ≤ x) :
    L.length ≤ L.sum ∧ (L.sum = L.length ↔ L = []) := by
  induction L with
  | nil => simp
  | cons x L ih =>
      have hx := h x (List.mem_cons_self x L)
      have hL := ih (fun y hy => h y (List.mem_cons_of_mem x hy))
      refine ⟨by simp [List.sum_cons]; omega, ?_, ?_⟩
      · intro heq
        exfalso
        have := hL.1
        simp [List.sum_cons] at heq
        omega
      · intro heq
        simp at heq

lemma two_le_of_mem_filter_repeats {L : List Nat} {x : Nat}
    (hx : x ∈ L.filter (fun r => 1 < r)) : 2 ≤ x := by
  have := List.of_mem_filter hx
  simpa using this

lemma REVERSE_isSome_of_ATGC {c : Char} (h : is_ATGC c = true) :
    (REVERSE c).isSome = true := by
  simp [is_ATGC] at h
  rcases h with ((h | h) | h) | h <;> subst h <;> rfl


/-- C1: the complement mapper is claimed to return the Watson-Crick
reverse-complement of a segment (so that the reverse-complement of "ATGC"
is "GCAT") and to differ from the identity on non-self-complementary
segments.  The code contradicts its own docstring ("get reverse
complementary sequence"): its loop discards every `REVERSE` lookup, so
`complement` returns "ATGC" unchanged, which is not "GCAT". -/
theorem complement_identity_defect :
    complement "ATGC".toList = some ("ATGC".toList) ∧
    "ATGC".toList ≠ "GCAT".toList := by decide

/-- C2: for sc1 = "AAAA", sc2 = "TTTT", n = 2, linear topology,
reverse-complement mode enabled, the claim expects a raw exact count of 0
(which holds) and a raw reverse-complement count strictly greater than 0.
Because `complement` is a no-op, no window of "AAAA" ever equals a
(reversed but uncomplemented) window of "TTTT", and the code returns a
reverse-complement count of 0. -/
theorem check_ortho_AAAA_TTTT_rc :
    check_ortho "AAAA".toList "TTTT".toList ⟨2, true, true⟩ =
      some ⟨0, some 0, 0, some 0, [], []⟩ := by decide

/-- C3: for every pair of validated sequences and every configuration,
the corrected count equals the raw count minus (sum(R) - length(R)) for
the repeat-multiplicity list R, an entry being recorded for a starting
position of sc1 exactly when its per-position match counter exceeds 1;
this holds for the exact counters and, via `Option.map` (which covers
the enabled reverse-complement mode), for the reverse-complement
counters. -/
theorem check_ortho_repeat_correction (sc1 sc2 : List Char) (project : Project)
    (hv : project.get_rev_compl = true → ∀ c ∈ sc2, (REVERSE c).isSome = true)
    (o : Output) (h : check_ortho sc1 sc2 project = some o) :
    o.count_corrected =
      (o.count : Int) - ((o.n_count.map Int.ofNat).sum - o.n_count.length) ∧
    o.n_count = (exact_repeats sc1 sc2 project).filter (fun r => 1 < r) ∧
    o.count_revcompl_corrected = o.count_revcompl.map (fun c =>
      (c : Int) -
        ((o.n_count_revcompl.map Int.ofNat).sum - o.n_count_revcompl.length)) ∧
    o.n_count_revcompl = (rc_repeats sc1 sc2 project).filter (fun r => 1 < r) := by
  have ho : o = _ := (Option.some.inj ((check_ortho_eq sc1 sc2 project hv).symm.trans h)).symm
  subst ho
  refine ⟨rfl, rfl, ?_, rfl⟩
  by_cases hg : project.get_rev_compl <;> simp [hg]

theorem check_ortho_repeat_correction_witness :
    check_ortho "AA".toList "AA".toList ⟨1, true, true⟩ =
      some ⟨4, some 2, 2, some 2, [2, 2], []⟩ ∧
    ([2, 2] : List Nat) =
      (exact_repeats "AA".toList "AA".toList ⟨1, true, true⟩).filter
        (fun r => 1 < r) :=
  ⟨by decide,
   (check_ortho_repeat_correction "AA".toList "AA".toList ⟨1, true, true⟩
      (by decide) ⟨4, some 2, 2, some 2, [2, 2], []⟩ (by decide)).2.1⟩

/-- C4: in circular mode the circulariser returns each sequence followed
by its first n characters, hence the extension restricted to the first
len(s) positions is s itself; in linear mode the sequences are returned
unchanged. -/
theorem circularise_sc_spec (sc1 sc2 : List Char) (project : Project) :
    (project.is_linear = false →
      circularise_sc project sc1 sc2 =
        (sc1 ++ sc1.take project.n, sc2 ++ sc2.take project.n) ∧
      ((circularise_sc project sc1 sc2).1).take sc1.length = sc1 ∧
      ((circularise_sc project sc1 sc2).2).take sc2.length = sc2) ∧
    (project.is_linear = true → circularise_sc project sc1 sc2 = (sc1, sc2)) := by
  constructor
  · intro hl
    simp [circularise_sc, hl, List.take_left]
  · intro hl
    simp [circularise_sc, hl]

theorem circularise_sc_spec_witness :
    circularise_sc ⟨2, false, false⟩ "ATG".toList "GCT".toList =
      ("ATG".toList ++ ("ATG".toList).take 2,
       "GCT".toList ++ ("GCT".toList).take 2) :=
  ((circularise_sc_spec "ATG".toList "GCT".toList ⟨2, false, false⟩).1 rfl).1

/-- C5: for every pair of validated sequences and every configuration,
the corrected exact count is at most the raw exact count, with equality
exactly when the exact repeat-multiplicity list is empty. -/
theorem corrected_le_raw (sc1 sc2 : List Char) (project : Project)
    (hv : project.get_rev_compl = true → ∀ c ∈ sc2, (REVERSE c).isSome = true)
    (o : Output) (h : check_ortho sc1 sc2 project = some o) :
    o.count_corrected ≤ (o.count : Int) ∧
    (o.count_corrected = (o.count : Int) ↔ o.n_count = []) := by
  have ho : o = _ := (Option.some.inj ((check_ortho_eq sc1 sc2 project hv).symm.trans h)).symm
  subst ho
  have h2 : ∀ x ∈ (exact_repeats sc1 sc2 project).filter (fun r => 1 < r), 2 ≤ x :=
    fun x hx => two_le_of_mem_filter_repeats hx
  have hls := length_le_sum_of_two_le _ h2
  dsimp only
  rw [sum_map_ofNat]
  constructor
  · have := hls.1
    omega
  · constructor
    · intro heq
      exact hls.2.mp (by omega)
    · intro heq
      rw [heq]
      simp

theorem corrected_le_raw_witness :
    Output.count_corrected ⟨4, some 2, 2, some 2, [2, 2], []⟩ ≤
      (Output.count ⟨4, some 2, 2, some 2, [2, 2], []⟩ : Int) :=
  (corrected_le_raw "AA".toList "AA".toList ⟨1, true, true⟩ (by decide)
    ⟨4, some 2, 2, some 2, [2, 2], []⟩ (by decide)).1

/-- C6: for sc1 = sc2 = "ATGCATGC", n = 4, circular topology, no
reverse-complement, the scan returns a raw exact count strictly greater
than 8 (it is 16) and a corrected exact count of exactly 8, one
contribution per starting position of sc1. -/
theorem check_ortho_period4_selfscan :
    ∃ o, check_ortho "ATGCATGC".toList "ATGCATGC".toList ⟨4, false, false⟩ =
        some o ∧ 8 < o.count ∧ o.count_corrected = 8 :=
  ⟨⟨16, none, 8, none, [2, 2, 2, 2, 2, 2, 2, 2], []⟩, by decide, by decide,
    by decide⟩

/-- C7, counterexample: the claim says that a segment length n exceeding
len(sc2) makes the scoring call fail with `InvalidSegmentLength` instead
of returning a result record.  The code contains no such check: with
sc2 = "AA" and n = 3 > 2, `check_ortho` returns an ordinary result
record (all counts zero in linear mode, since no window reaches
length n). -/
theorem check_ortho_no_length_guard :
    ("AA".toList).length < 3 ∧
    check_ortho "AAAA".toList "AA".toList ⟨3, true, false⟩ =
      some ⟨0, none, 0, none, [], []⟩ := by decide

/-- C7, amended: when n exceeds len(sc2) the scoring call does not fail;
it returns a result record normally (short windows are merely excluded
by the length test inside `is_match`). -/
theorem check_ortho_long_n_returns_record (sc1 sc2 : List Char)
    (project : Project)
    (hv : project.get_rev_compl = true → ∀ c ∈ sc2, (REVERSE c).isSome = true)
    (_hn : sc2.length < project.n) :
    ∃ o, check_ortho sc1 sc2 project = some o :=
  ⟨_, check_ortho_eq sc1 sc2 project hv⟩

theorem check_ortho_long_n_returns_record_witness :
    ∃ o, check_ortho "AAAA".toList "AA".toList ⟨5, true, true⟩ = some o :=
  check_ortho_long_n_returns_record "AAAA".toList "AA".toList ⟨5, true, true⟩
    (by decide) (by decide)

/-- C8, counterexample: the claim says validation fails when the cleaned
string is empty; in fact `set("").issubset(set("ATGC"))` holds, so the
empty string passes validation and is returned. -/
theorem proc_infile_accepts_empty : proc_infile [] = some [] := by decide

/-- C8, amended: validation uppercases the raw line and strips newline
characters from its ends, fails exactly when the cleaned string contains
a character outside {A,T,G,C} (the empty string is accepted), and on
success returns the cleaned string unchanged. -/
theorem proc_infile_spec (line : List Char) :
    (proc_infile line = none ↔
      ∃ c ∈ pyStripNL (pyUpper line), is_ATGC c = false) ∧
    ∀ r, proc_infile line = some r → r = pyStripNL (pyUpper line) := by
  unfold proc_infile
  cases h : (pyStripNL (pyUpper line)).all is_ATGC <;> simp [h]
  · rw [List.all_eq_false] at h
    obtain ⟨c, hc, hc'⟩ := h
    exact ⟨c, hc, by simpa using hc'⟩
  · rw [List.all_eq_true] at h
    intro c hc
    exact h c hc

theorem proc_infile_spec_witness : proc_infile ['x'] = none :=
  (proc_infile_spec ['x']).1.mpr ⟨'X', by decide, by decide⟩

/-- C9: whenever reverse-complement mode is disabled, the scoring call
succeeds and its reverse-complement fields are the explicit
"not computed" state (`none`, the embedding of the float `nan` the code
stores there) rather than a numeric value, and the reverse-complement
repeat-multiplicity list carries no entries. -/
theorem check_ortho_rc_disabled_fields (sc1 sc2 : List Char) (project : Project)
    (hg : project.get_rev_compl = false) :
    ∃ o, check_ortho sc1 sc2 project = some o ∧
      o.count_revcompl = none ∧ o.count_revcompl_corrected = none ∧
      o.n_count_revcompl = [] := by
  have hv : project.get_rev_compl = true →
      ∀ c ∈ sc2, (REVERSE c).isSome = true := by
    intro hgt
    rw [hg] at hgt
    cases hgt
  refine ⟨_, check_ortho_eq sc1 sc2 project hv, by simp [hg], by simp [hg], ?_⟩
  have hz : ∀ i, repeat_RC_at (circularise_sc project sc1 sc2).1
      (circularise_sc project sc1 sc2).2 sc2.length project i = 0 := by
    intro i
    simp [repeat_RC_at, rcHit, hg, List.countP_eq_zero]
  show (rc_repeats sc1 sc2 project).filter (fun r => 1 < r) = []
  rw [List.filter_eq_nil_iff]
  intro a ha
  unfold rc_repeats at ha
  rw [List.mem_map] at ha
  obtain ⟨i, hi, hia⟩ := ha
  rw [hz i] at hia
  rw [← hia]
  decide

theorem check_ortho_rc_disabled_fields_witness :
    ∃ o, check_ortho "A".toList "A".toList ⟨1, true, false⟩ = some o ∧
      o.count_revcompl = none ∧ o.count_revcompl_corrected = none ∧
      o.n_count_revcompl = [] :=
  check_ortho_rc_disabled_fields "A".toList "A".toList ⟨1, true, false⟩ rfl

/-- C10: for every pair of non-empty sequences over {A,T,G,C} and every
segment length n ≥ 1 — including n larger than either sequence — the
scan terminates normally with a result record and raises no error, and
the match predicate accepts a window only when its length is exactly n,
so truncated windows are never counted. -/
theorem check_ortho_total_and_length_guard (sc1 sc2 : List Char)
    (project : Project) (_h1 : sc1 ≠ []) (_h2 : sc2 ≠ [])
    (_ha1 : ∀ c ∈ sc1, is_ATGC c = true) (ha2 : ∀ c ∈ sc2, is_ATGC c = true)
    (_hn : 1 ≤ project.n) :
    (∃ o, check_ortho sc1 sc2 project = some o) ∧
    ∀ seg1 seg2 : List Char, is_match seg1 seg2 project = true →
      seg1.length = project.n := by
  constructor
  · exact ⟨_, check_ortho_eq sc1 sc2 project
      (fun _ c hc => REVERSE_isSome_of_ATGC (ha2 c hc))⟩
  · intro seg1 seg2 hm
    simp [is_match] at hm
    exact hm.2

theorem check_ortho_total_and_length_guard_witness :
    (∃ o, check_ortho "A".toList "A".toList ⟨2, true, true⟩ = some o) ∧
    ("AT".toList).length = (2 : Nat) :=
  ⟨(check_ortho_total_and_length_guard "A".toList "A".toList ⟨2, true, true⟩
      (by decide) (by decide) (by decide) (by decide) (by decide)).1,
   (check_ortho_total_and_length_guard "A".toList "A".toList ⟨2, true, true⟩
      (by decide) (by decide) (by decide) (by decide) (by decide)).2
      "AT".toList "AT".toList (by decide)⟩

end ScaffoldOrtho
